import Mathlib

/-!
Verification of the PSGC (Philippine Standard Geographic Code) lookup API,
`src/main.py`.  The dataset is a sequence of geographic records; the code
builds two Python dicts keyed by the 10-digit code (`load_data`), resolves
hierarchical paths by code-prefix lookups (`build_full_path`), serves the
list endpoints with optional parent-code filters (`get_provinces`,
`get_cities_municipalities`, `get_barangays`), and searches a level by name
(`search_locations`, whose pandas `str.contains` treats the query as a
regular expression).
-/

deriving instance DecidableEq for Except

namespace PSGC

/-- One row of the PSGC dataset: the 10-digit code, the human-readable name
and the geographic-level tag (the source uses the strings "Reg", "Prov",
"City", "Mun", "Bgy"). -/
structure Record where
  code : String
  name : String
  level : String
deriving DecidableEq

/-- One element of an endpoint's response: the code, the name, and the
resolved hierarchical path. -/
structure Row where
  code : String
  name : String
  full_path : String
deriving DecidableEq

/-- Python dict assignment `d[k] = v`: overwrite the value in place if the
key is present, else append the binding at the end. -/
def dictInsert (d : List (String × α)) (k : String) (v : α) : List (String × α) :=
  if d.any (fun p => p.1 == k) then
    d.map (fun p => if p.1 == k then (k, v) else p)
  else
    d ++ [(k, v)]

/-- Build a Python dict from a sequence of key-value pairs, left to right
(later bindings overwrite earlier ones, as in `dict(zip(keys, values))`). -/
def dictOfListAux (acc : List (String × α)) : List (String × α) → List (String × α)
  | [] => acc
  | p :: rest => dictOfListAux (dictInsert acc p.1 p.2) rest

/-- The dict built from an association sequence. -/
def dictOfList (l : List (String × α)) : List (String × α) :=
  dictOfListAux [] l

/-- Python `d.get(k)`: the value bound to the first (after construction,
only) occurrence of the key, if any. -/
def dictGet (d : List (String × α)) (k : String) : Option α :=
  (d.find? (fun p => p.1 == k)).map (fun p => p.2)

/-- The `code_to_name` dict of `load_data` (src/main.py line 26). -/
def code_to_name (db : List Record) : List (String × String) :=
  dictOfList (db.map (fun r => (r.code, r.name)))

/-- The `code_to_level` dict of `load_data` (src/main.py line 27). -/
def code_to_level (db : List Record) : List (String × String) :=
  dictOfList (db.map (fun r => (r.code, r.level)))

/-- Python `s.startswith(pre)`: the characters of `pre` are an initial
segment of the characters of `s`. -/
def strStartsWith (s pre : String) : Bool :=
  pre.data.isPrefixOf s.data

/-- Python `s.lower()`, character by character (the dataset's names and the
queries of interest are plain text, for which per-character lowering agrees
with Python). -/
def strToLower (s : String) : String :=
  ⟨s.data.map Char.toLower⟩

/-- Python truthiness of an optional string appended under `if x:`:
`None` and the empty string contribute nothing. -/
def truthyToList : Option String → List String
  | none => []
  | some s => if s.isEmpty then [] else [s]

/-- Python truthiness of an optional string parameter (`if region_code:`):
false for `None` and for the empty string. -/
def pyTruthy : Option String → Bool
  | none => false
  | some s => !s.isEmpty

/-- The `parts` accumulated by `build_full_path` (src/main.py lines 35-53):
in dict order, the name of the first Region whose code starts with the
first 2 characters of the input, of the first Province matching the first
5, of the first City or Municipality matching the first 7 (each appended
only when found and truthy), and the record's own name when the input code
is a Barangay. -/
def path_parts (db : List Record) (psgc_code : String) : List String :=
  let c2n := code_to_name db
  let c2l := code_to_level db
  let region := (c2n.find? (fun p =>
    strStartsWith p.1 (psgc_code.take 2) && (dictGet c2l p.1 == some "Reg"))).map (fun p => p.2)
  let province := (c2n.find? (fun p =>
    strStartsWith p.1 (psgc_code.take 5) && (dictGet c2l p.1 == some "Prov"))).map (fun p => p.2)
  let city_mun := (c2n.find? (fun p =>
    strStartsWith p.1 (psgc_code.take 7) &&
      (dictGet c2l p.1 == some "City" || dictGet c2l p.1 == some "Mun"))).map (fun p => p.2)
  let bgy : List String :=
    if dictGet c2l psgc_code = some "Bgy" then (dictGet c2n psgc_code).toList else []
  truthyToList region ++ truthyToList province ++ truthyToList city_mun ++ bgy

/-- `build_full_path` (src/main.py lines 32-55): join the collected
ancestor names with " > ". -/
def build_full_path (db : List Record) (psgc_code : String) : String :=
  String.intercalate " > " (path_parts db psgc_code)

/-- The response row for a record: code, name, and resolved path, as each
endpoint produces with `apply(build_full_path)`. -/
def mkRow (db : List Record) (r : Record) : Row :=
  ⟨r.code, r.name, build_full_path db r.code⟩

/-- `get_provinces` (src/main.py lines 66-78): all Province records,
restricted, when a truthy region code is given, to codes starting with its
first 2 characters. -/
def get_provinces (db : List Record) (region_code : Option String) : List Row :=
  let prov_df :=
    if pyTruthy region_code then
      db.filter (fun r =>
        r.level == "Prov" && strStartsWith r.code ((region_code.getD "").take 2))
    else
      db.filter (fun r => r.level == "Prov")
  prov_df.map (mkRow db)

/-- `get_cities_municipalities` (src/main.py lines 81-93): all City and
Municipality records, restricted, when a truthy province code is given, to
codes starting with its first 5 characters. -/
def get_cities_municipalities (db : List Record) (province_code : Option String) : List Row :=
  let citi_muni_df :=
    if pyTruthy province_code then
      db.filter (fun r =>
        (r.level == "City" || r.level == "Mun") &&
          strStartsWith r.code ((province_code.getD "").take 5))
    else
      db.filter (fun r => r.level == "City" || r.level == "Mun")
  citi_muni_df.map (mkRow db)

/-- `get_barangays` (src/main.py lines 96-108): all Barangay records,
restricted, when a truthy municipality code is given, to codes starting
with its first 7 characters. -/
def get_barangays (db : List Record) (municipality_code : Option String) : List Row :=
  let bgy_df :=
    if pyTruthy municipality_code then
      db.filter (fun r =>
        r.level == "Bgy" && strStartsWith r.code ((municipality_code.getD "").take 7))
    else
      db.filter (fun r => r.level == "Bgy")
  bgy_df.map (mkRow db)

/-- Characters that are metacharacters of Python regular expressions other
than the wildcard dot. -/
def pyRegexOther (c : Char) : Bool :=
  c == '^' || c == '$' || c == '*' || c == '+' || c == '?' || c == '\x7b' ||
  c == '\x7d' || c == '[' || c == ']' || c == '\\' || c == '|' || c == '(' || c == ')'

/-- An element of a compiled pattern in the modelled regex fragment: a
literal character or the wildcard dot. -/
inductive RElem where
  | lit : Char → RElem
  | dot : RElem
deriving DecidableEq

/-- Compilation of a Python regex pattern, for the fragment consisting of
literal characters and the wildcard dot.  Every other metacharacter is
reported as a compilation failure; Python accepts some of those (e.g.
quantifiers), but no development below evaluates the matcher on such a
pattern, while an unbalanced "(" does raise re.error in Python exactly as
modelled here. -/
def compilePat : List Char → Except Unit (List RElem)
  | [] => Except.ok []
  | c :: cs =>
    if c = '.' then (compilePat cs).map (fun ps => RElem.dot :: ps)
    else if pyRegexOther c then Except.error ()
    else (compilePat cs).map (fun ps => RElem.lit c :: ps)

/-- Matching of a compiled pattern against an initial segment of the text:
a literal matches its own character, the dot matches any character except
the newline. -/
def matchHere : List RElem → List Char → Bool
  | [], _ => true
  | _ :: _, [] => false
  | RElem.lit c :: ps, x :: xs => x == c && matchHere ps xs
  | RElem.dot :: ps, x :: xs => !(x == '\n') && matchHere ps xs

/-- Python `re.search`: the pattern matches at some position of the text. -/
def reSearch (pat : List RElem) : List Char → Bool
  | [] => matchHere pat []
  | x :: xs => matchHere pat (x :: xs) || reSearch pat xs

/-- `search_locations` (src/main.py lines 111-124): lower-case the query,
hand it to pandas `str.contains` — which interprets it as a regular
expression and raises on an invalid pattern — and keep the records at the
given level whose lower-cased name matches. -/
def search_locations (db : List Record) (level q : String) : Except Unit (List Row) :=
  let q_lower := strToLower q
  match compilePat q_lower.data with
  | Except.error e => Except.error e
  | Except.ok pat =>
    Except.ok ((db.filter (fun r =>
      r.level == level && reSearch pat (strToLower r.name).data)).map (mkRow db))

/-- The geographic-level tags recognized by the API (src/main.py line 113). -/
def recognized_levels : List String := ["Reg", "Prov", "City", "Mun", "Bgy"]

/-- Literal (non-regex) substring containment on character lists, the
spec's reading of "contains the query as a substring". -/
def listContains (needle : List Char) : List Char → Bool
  | [] => needle.isEmpty
  | x :: xs => needle.isPrefixOf (x :: xs) || listContains needle xs

/-- The hierarchy invariant of the spec's data model, stated per lookup
level: for every record, at most one Region record shares its 2-character
code head, at most one Province record shares its 5-character head, and at
most one City or Municipality record shares its 7-character head. -/
def hierarchyInv (db : List Record) : Prop :=
  ∀ x ∈ db,
    (∀ y ∈ db, ∀ z ∈ db, y.level = "Reg" → z.level = "Reg" →
      strStartsWith y.code (x.code.take 2) → strStartsWith z.code (x.code.take 2) → y = z) ∧
    (∀ y ∈ db, ∀ z ∈ db, y.level = "Prov" → z.level = "Prov" →
      strStartsWith y.code (x.code.take 5) → strStartsWith z.code (x.code.take 5) → y = z) ∧
    (∀ y ∈ db, ∀ z ∈ db, (y.level = "City" ∨ y.level = "Mun") →
      (z.level = "City" ∨ z.level = "Mun") →
      strStartsWith y.code (x.code.take 7) → strStartsWith z.code (x.code.take 7) → y = z)

/-- The three-record dataset of the spec's concrete path scenario. -/
def dbScene : List Record :=
  [⟨"1300000000", "National Capital Region", "Reg"⟩,
   ⟨"1380600000", "Quezon City", "City"⟩,
   ⟨"1380601000", "Barangay X", "Bgy"⟩]

/-- A one-record dataset exhibiting the regex behaviour of search. -/
def dbOneReg : List Record :=
  [⟨"0100000000", "abc", "Reg"⟩]

/-- A small two-level sample dataset: a region and a province under it. -/
def dbRegProv : List Record :=
  [⟨"0100000000", "Ilocos Region", "Reg"⟩,
   ⟨"0102800000", "Ilocos Norte", "Prov"⟩]

/-- A dataset satisfying the hierarchy invariant in which a Province code
extends a Region's 5-character head. -/
def dbRegProvClash : List Record :=
  [⟨"1300000000", "R", "Reg"⟩,
   ⟨"1300000001", "P", "Prov"⟩]

/-! ## Dictionary lemmas -/

theorem dictInsert_mem {α : Type} {d : List (String × α)} {k : String} {v : α}
    {x : String × α} (hx : x ∈ dictInsert d k v) : x ∈ d ∨ x = (k, v) := by
  unfold dictInsert at hx
  split at hx
  · rcases List.mem_map.1 hx with ⟨p, hp, hpe⟩
    split at hpe
    · right; exact hpe.symm
    · left; exact hpe ▸ hp
  · rcases List.mem_append.1 hx with h1 | h1
    · left; exact h1
    · right; simpa using h1

theorem dictOfListAux_mem {α : Type} : ∀ (l acc : List (String × α)) (x : String × α),
    x ∈ dictOfListAux acc l → x ∈ acc ∨ x ∈ l
  | [], _, _, hx => Or.inl hx
  | p :: rest, acc, x, hx => by
    rcases dictOfListAux_mem rest (dictInsert acc p.1 p.2) x hx with h | h
    · rcases dictInsert_mem h with h1 | h1
      · exact Or.inl h1
      · exact Or.inr (h1 ▸ List.mem_cons_self p rest)
    · exact Or.inr (List.mem_cons_of_mem p h)

theorem dictOfList_mem {α : Type} {l : List (String × α)} {x : String × α}
    (hx : x ∈ dictOfList l) : x ∈ l := by
  rcases dictOfListAux_mem l [] x hx with h | h
  · cases h
  · exact h

theorem dictInsert_of_not_mem {α : Type} {d : List (String × α)} {k : String} {v : α}
    (h : ∀ p ∈ d, p.1 ≠ k) : dictInsert d k v = d ++ [(k, v)] := by
  have hno : d.any (fun p => p.1 == k) = false := by
    rw [List.any_eq_false]
    intro p hp
    simpa using h p hp
  unfold dictInsert
  rw [hno]
  simp

theorem dictOfListAux_eq {α : Type} : ∀ (l acc : List (String × α)),
    (∀ p ∈ acc, ∀ q ∈ l, p.1 ≠ q.1) →
    (l.map Prod.fst).Pairwise (fun a b => a ≠ b) →
    dictOfListAux acc l = acc ++ l
  | [], acc, _, _ => by simp [dictOfListAux]
  | q :: rest, acc, hdisj, hpw => by
    rw [List.map_cons, List.pairwise_cons] at hpw
    have h1 : dictInsert acc q.1 q.2 = acc ++ [(q.1, q.2)] :=
      dictInsert_of_not_mem (fun p hp => hdisj p hp q (List.mem_cons_self q rest))
    have hdisj2 : ∀ p ∈ acc ++ [(q.1, q.2)], ∀ x ∈ rest, p.1 ≠ x.1 := by
      intro p hp x hx
      rcases List.mem_append.1 hp with h | h
      · exact hdisj p h x (List.mem_cons_of_mem q hx)
      · have : p = (q.1, q.2) := by simpa using h
        rw [this]
        exact hpw.1 x.1 (List.mem_map_of_mem Prod.fst hx)
    have h2 := dictOfListAux_eq rest (acc ++ [(q.1, q.2)]) hdisj2 hpw.2
    show dictOfListAux (dictInsert acc q.1 q.2) rest = acc ++ q :: rest
    rw [h1, h2]
    simp

theorem dictOfList_eq_self {α : Type} {l : List (String × α)}
    (h : (l.map Prod.fst).Pairwise (fun a b => a ≠ b)) : dictOfList l = l := by
  have := dictOfListAux_eq l [] (by simp) h
  simpa [dictOfList] using this

/-! ## find? lemmas -/

theorem find?_congr_mem {α : Type} {p q : α → Bool} : ∀ {l : List α},
    (∀ x ∈ l, p x = q x) → l.find? p = l.find? q
  | [], _ => rfl
  | x :: xs, h => by
    have hx := h x (List.mem_cons_self x xs)
    have ht := find?_congr_mem (l := xs) (fun y hy => h y (List.mem_cons_of_mem x hy))
    cases hpx : p x with
    | true => simp [List.find?_cons, hpx, hx ▸ hpx]
    | false => simp [List.find?_cons, hpx, hx ▸ hpx, ht]

theorem find?_eq_some_unique {α : Type} {p : α → Bool} {r : α} : ∀ {l : List α},
    r ∈ l → p r = true → (∀ x ∈ l, p x = true → x = r) → l.find? p = some r
  | [], hr, _, _ => absurd hr (List.not_mem_nil r)
  | x :: xs, hr, hpr, huniq => by
    cases hpx : p x with
    | true =>
      have hxr : x = r := huniq x (List.mem_cons_self x xs) hpx
      simp [List.find?_cons, hpx, hxr, hpr]
    | false =>
      have hrx : r ∈ xs := by
        rcases List.mem_cons.1 hr with h | h
        · rw [← h, hpr] at hpx; cases hpx
        · exact h
      have ht := find?_eq_some_unique hrx hpr
        (fun y hy => huniq y (List.mem_cons_of_mem x hy))
      simp [List.find?_cons, hpx, ht]

/-- Under code uniqueness, the first record found by code is the record
itself. -/
theorem find?_code {db : List Record} {r : Record} (hr : r ∈ db)
    (hu : db.Pairwise (fun a b => a.code ≠ b.code)) :
    db.find? (fun x => x.code == r.code) = some r := by
  induction db with
  | nil => cases hr
  | cons h t ih =>
    rw [List.pairwise_cons] at hu
    rcases List.mem_cons.1 hr with he | ht
    · rw [he]
      simp [List.find?_cons]
    · have hne : (h.code == r.code) = false := by
        simpa using hu.1 r ht
      simp [List.find?_cons, hne, ih ht hu.2]

/-! ## Index lemmas -/

theorem code_to_name_eq {db : List Record}
    (hu : db.Pairwise (fun a b => a.code ≠ b.code)) :
    code_to_name db = db.map (fun r => (r.code, r.name)) := by
  apply dictOfList_eq_self
  rw [List.map_map, List.pairwise_map]
  exact hu

theorem code_to_level_eq {db : List Record}
    (hu : db.Pairwise (fun a b => a.code ≠ b.code)) :
    code_to_level db = db.map (fun r => (r.code, r.level)) := by
  apply dictOfList_eq_self
  rw [List.map_map, List.pairwise_map]
  exact hu

theorem dictGet_map_name {db : List Record} {r : Record} (hr : r ∈ db)
    (hu : db.Pairwise (fun a b => a.code ≠ b.code)) :
    dictGet (db.map fun x => (x.code, x.name)) r.code = some r.name := by
  unfold dictGet
  rw [List.find?_map]
  have hcomp : ((fun p : String × String => p.1 == r.code) ∘ fun x : Record =>
      (x.code, x.name)) = fun x : Record => x.code == r.code := rfl
  rw [hcomp, find?_code hr hu]
  rfl

theorem dictGet_map_level {db : List Record} {r : Record} (hr : r ∈ db)
    (hu : db.Pairwise (fun a b => a.code ≠ b.code)) :
    dictGet (db.map fun x => (x.code, x.level)) r.code = some r.level := by
  unfold dictGet
  rw [List.find?_map]
  have hcomp : ((fun p : String × String => p.1 == r.code) ∘ fun x : Record =>
      (x.code, x.level)) = fun x : Record => x.code == r.code := rfl
  rw [hcomp, find?_code hr hu]
  rfl

/-! ## String and pattern lemmas -/

theorem strStartsWith_take (s : String) (n : Nat) :
    strStartsWith s (s.take n) = true := by
  show (s.take n).data.isPrefixOf s.data = true
  rw [List.isPrefixOf_iff_prefix, String.data_take]
  exact List.take_prefix n s.data

theorem compilePat_ok {cs : List Char} (h : ∀ c ∈ cs, pyRegexOther c = false) :
    ∃ pat, compilePat cs = Except.ok pat := by
  induction cs with
  | nil => exact ⟨[], rfl⟩
  | cons c cs ih =>
    rcases ih (fun x hx => h x (List.mem_cons_of_mem c hx)) with ⟨pat, hp⟩
    by_cases hc : c = '.'
    · exact ⟨RElem.dot :: pat, by simp [compilePat, hc, hp, Except.map]⟩
    · have hm := h c (List.mem_cons_self c cs)
      exact ⟨RElem.lit c :: pat, by simp [compilePat, hc, hm, hp, Except.map]⟩

/-! ## Path lemmas -/

theorem truthyToList_mem {o : Option String} {p : String}
    (h : p ∈ truthyToList o) : o = some p := by
  cases o with
  | none => cases h
  | some s =>
    simp only [truthyToList] at h
    split at h
    · cases h
    · rw [List.mem_singleton.1 h]

theorem name_of_find?_part {db : List Record} {pred : String × String → Bool} {p : String}
    (h : ((code_to_name db).find? pred).map (fun q => q.2) = some p) :
    ∃ r ∈ db, p = r.name := by
  rcases Option.map_eq_some'.1 h with ⟨pr, hf, he⟩
  have hmem := List.mem_of_find?_eq_some hf
  rcases List.mem_map.1 (dictOfList_mem hmem) with ⟨r, hr, hre⟩
  exact ⟨r, hr, by rw [← he, ← hre]⟩

theorem path_parts_names (db : List Record) (s : String) :
    ∀ p ∈ path_parts db s, ∃ r ∈ db, p = r.name := by
  intro p hp
  simp only [path_parts, List.mem_append] at hp
  rcases hp with ((h | h) | h) | h
  · exact name_of_find?_part (truthyToList_mem h)
  · exact name_of_find?_part (truthyToList_mem h)
  · exact name_of_find?_part (truthyToList_mem h)
  · split at h
    · exact name_of_find?_part (Option.mem_def.1 (Option.mem_toList.1 h))
    · cases h

theorem pyTruthy_some {s : String} (h : s ≠ "") : pyTruthy (some s) = true := by
  have he : s.isEmpty = false := by
    rw [Bool.eq_false_iff]
    intro ht
    exact h (String.isEmpty_iff s |>.mp ht)
  simp [pyTruthy, he]

/-! ## Claims -/

/-- C1, counterexample: on the spec's three-record scenario the resolver
does not return the three-segment path the spec states, because the city
lookup's 7-character head "1380601" of the barangay code is not an initial
segment of Quezon City's code "1380600000". -/
theorem scenario_path_ne_spec :
    build_full_path dbScene "1380601000" ≠
      "National Capital Region > Quezon City > Barangay X" := by decide

/-- C1 (amended): on the spec's three-record scenario the resolver returns
"National Capital Region > Barangay X"; the City record is skipped since
its code does not extend the 7-character city-level head of the input. -/
theorem scenario_path_value :
    build_full_path dbScene "1380601000" = "National Capital Region > Barangay X" := by
  decide

/-- C2: the search treats the query as a regular expression, not a literal
substring.  On a dataset whose single Region is named "abc", the query "."
returns that record even though no name contains "." literally. -/
theorem search_dot_regex_bug :
    search_locations dbOneReg "Reg" "." =
      Except.ok [⟨"0100000000", "abc", "abc"⟩] ∧
    (∀ r ∈ dbOneReg,
      listContains (strToLower ".").data (strToLower r.name).data = false) :=
  ⟨by decide, by decide⟩

/-- C3: under code uniqueness, looking a record's code up in the
code-to-name and code-to-level dicts built by load_data returns exactly
that record's name and level. -/
theorem index_get_returns_record (db : List Record) (r : Record) (hr : r ∈ db)
    (hu : db.Pairwise (fun a b => a.code ≠ b.code)) :
    dictGet (code_to_name db) r.code = some r.name ∧
    dictGet (code_to_level db) r.code = some r.level := by
  constructor
  · rw [code_to_name_eq hu]
    exact dictGet_map_name hr hu
  · rw [code_to_level_eq hu]
    exact dictGet_map_level hr hu

/-- Witness for C3 at a concrete two-record dataset. -/
theorem index_get_returns_record_witness :
    (⟨"0102800000", "Ilocos Norte", "Prov"⟩ : Record) ∈ dbRegProv ∧
    dbRegProv.Pairwise (fun a b => a.code ≠ b.code) ∧
    (dictGet (code_to_name dbRegProv) "0102800000" = some "Ilocos Norte" ∧
     dictGet (code_to_level dbRegProv) "0102800000" = some "Prov") :=
  ⟨by decide, by decide,
    index_get_returns_record dbRegProv ⟨"0102800000", "Ilocos Norte", "Prov"⟩
      (by decide) (by decide)⟩

/-- C4: for a non-empty region code, the filtered province list is a
subset of the unfiltered one, and every returned row's code starts with
the first 2 characters of the region code. -/
theorem provinces_filtered_subset (db : List Record) (rc : String) (h : rc ≠ "") :
    (∀ row ∈ get_provinces db (some rc), row ∈ get_provinces db none) ∧
    (∀ row ∈ get_provinces db (some rc), strStartsWith row.code (rc.take 2) = true) := by
  have htr : pyTruthy (some rc) = true := pyTruthy_some h
  have hbranch : get_provinces db (some rc) =
      (db.filter (fun r =>
        r.level == "Prov" && strStartsWith r.code (rc.take 2))).map (mkRow db) := by
    simp [get_provinces, htr]
  constructor
  · intro row hrow
    rw [hbranch] at hrow
    rcases List.mem_map.1 hrow with ⟨r, hrf, hre⟩
    rcases List.mem_filter.1 hrf with ⟨hrdb, hpr⟩
    rw [Bool.and_eq_true] at hpr
    have hlev : (r.level == "Prov") = true := hpr.1
    show row ∈ get_provinces db none
    simp only [get_provinces, pyTruthy, Bool.false_eq_true, if_false]
    rw [← hre]
    exact List.mem_map_of_mem (mkRow db) (List.mem_filter.2 ⟨hrdb, hlev⟩)
  · intro row hrow
    rw [hbranch] at hrow
    rcases List.mem_map.1 hrow with ⟨r, hrf, hre⟩
    rcases List.mem_filter.1 hrf with ⟨_, hpr⟩
    rw [Bool.and_eq_true] at hpr
    have hsw := hpr.2
    rw [← hre]
    exact hsw

/-- Witness for C4 at a concrete dataset and region code. -/
theorem provinces_filtered_subset_witness :
    ("0102800000" : String) ≠ "" ∧
    ((∀ row ∈ get_provinces dbRegProv (some "0102800000"),
        row ∈ get_provinces dbRegProv none) ∧
     (∀ row ∈ get_provinces dbRegProv (some "0102800000"),
        strStartsWith row.code ("0102800000".take 2) = true)) :=
  ⟨by decide, provinces_filtered_subset dbRegProv "0102800000" (by decide)⟩

/-- C5, counterexample: with an unrecognized level and the query "(" the
search does not return an empty result; pandas raises a regex-compilation
error, modelled as Except.error. -/
theorem search_unknown_level_error :
    search_locations dbOneReg "Province" "(" = Except.error () := by decide

/-- C5 (amended): for a level outside the recognized tags, on a dataset
whose records all carry recognized tags, and for a query whose lower-cased
characters contain no regex metacharacter other than the dot, the search
returns an empty result and no error. -/
theorem search_unknown_level_empty (db : List Record) (level q : String)
    (hlev : level ∉ recognized_levels)
    (hdb : ∀ r ∈ db, r.level ∈ recognized_levels)
    (hq : ∀ c ∈ (strToLower q).data, pyRegexOther c = false) :
    search_locations db level q = Except.ok [] := by
  rcases compilePat_ok hq with ⟨pat, hp⟩
  have hfil : db.filter (fun r =>
      r.level == level && reSearch pat (strToLower r.name).data) = [] := by
    rw [List.filter_eq_nil_iff]
    intro r hr
    have hne : r.level ≠ level := fun hh => hlev (hh ▸ hdb r hr)
    simp [hne]
  simp only [search_locations, hp]
  rw [hfil]
  rfl

/-- Witness for C5 at a concrete dataset, level and query. -/
theorem search_unknown_level_empty_witness :
    ("Province" ∉ recognized_levels) ∧
    (∀ r ∈ dbOneReg, r.level ∈ recognized_levels) ∧
    (∀ c ∈ (strToLower "x").data, pyRegexOther c = false) ∧
    search_locations dbOneReg "Province" "x" = Except.ok [] :=
  ⟨by decide, by decide, by decide,
    search_unknown_level_empty dbOneReg "Province" "x" (by decide) (by decide) (by decide)⟩

/-- C6: the search depends on its query only through lowercasing, so two
queries equal after lowercasing give identical results. -/
theorem search_case_insensitive (db : List Record) (level q1 q2 : String)
    (h : strToLower q1 = strToLower q2) :
    search_locations db level q1 = search_locations db level q2 := by
  unfold search_locations
  rw [h]

/-- Witness for C6 with the spec's "NCR" versus "ncr" queries. -/
theorem search_case_insensitive_witness :
    strToLower "NCR" = strToLower "ncr" ∧
    search_locations dbOneReg "Reg" "NCR" = search_locations dbOneReg "Reg" "ncr" :=
  ⟨by decide, search_case_insensitive dbOneReg "Reg" "NCR" "ncr" (by decide)⟩

/-- C7, counterexample: a dataset satisfying the hierarchy invariant on
which a Region record's path is not its own name: a Province record whose
code extends the Region's 5-character head contributes a second segment. -/
theorem region_path_inv_counterexample :
    hierarchyInv dbRegProvClash ∧
    (⟨"1300000000", "R", "Reg"⟩ : Record) ∈ dbRegProvClash ∧
    build_full_path dbRegProvClash "1300000000" ≠ "R" := by
  refine ⟨?_, by decide, by decide⟩
  unfold hierarchyInv
  decide

/-- C7 (amended): a Region record's path is its own name, provided codes
are unique, the Region is the only Region sharing its 2-character head,
and no Province (resp. City or Municipality) record's code extends its
5-character (resp. 7-character) head. -/
theorem region_path_own_name (db : List Record) (r : Record) (hr : r ∈ db)
    (hlvl : r.level = "Reg")
    (hu : db.Pairwise (fun a b => a.code ≠ b.code))
    (hreg : ∀ x ∈ db, x.level = "Reg" →
      strStartsWith x.code (r.code.take 2) = true → x = r)
    (hprov : ∀ x ∈ db, x.level = "Prov" →
      strStartsWith x.code (r.code.take 5) = false)
    (hcity : ∀ x ∈ db, x.level = "City" ∨ x.level = "Mun" →
      strStartsWith x.code (r.code.take 7) = false) :
    build_full_path db r.code = r.name := by
  have hlevget : ∀ x ∈ db, dictGet (code_to_level db) x.code = some x.level := by
    intro x hx
    rw [code_to_level_eq hu]
    exact dictGet_map_level hx hu
  have hA : ((code_to_name db).find? (fun p =>
      strStartsWith p.1 (r.code.take 2) && (dictGet (code_to_level db) p.1 == some "Reg"))).map
        (fun p => p.2) = some r.name := by
    rw [code_to_name_eq hu, List.find?_map]
    have hcong : ∀ x ∈ db,
        ((fun p : String × String =>
          strStartsWith p.1 (r.code.take 2) && (dictGet (code_to_level db) p.1 == some "Reg")) ∘
          (fun x : Record => (x.code, x.name))) x =
        (fun x : Record => strStartsWith x.code (r.code.take 2) && (x.level == "Reg")) x := by
      intro x hx
      simp only [Function.comp_apply]
      rw [hlevget x hx]
      rfl
    rw [find?_congr_mem hcong]
    have hfind : db.find? (fun x : Record =>
        strStartsWith x.code (r.code.take 2) && (x.level == "Reg")) = some r := by
      apply find?_eq_some_unique hr
      · simp [strStartsWith_take, hlvl]
      · intro x hx hpx
        rw [Bool.and_eq_true] at hpx
        exact hreg x hx (by simpa using hpx.2) hpx.1
    rw [hfind]
    rfl
  have hB : ((code_to_name db).find? (fun p =>
      strStartsWith p.1 (r.code.take 5) && (dictGet (code_to_level db) p.1 == some "Prov"))).map
        (fun p => p.2) = none := by
    rw [code_to_name_eq hu, List.find?_map]
    have hcong : ∀ x ∈ db,
        ((fun p : String × String =>
          strStartsWith p.1 (r.code.take 5) && (dictGet (code_to_level db) p.1 == some "Prov")) ∘
          (fun x : Record => (x.code, x.name))) x =
        (fun x : Record => strStartsWith x.code (r.code.take 5) && (x.level == "Prov")) x := by
      intro x hx
      simp only [Function.comp_apply]
      rw [hlevget x hx]
      rfl
    rw [find?_congr_mem hcong]
    have hfind : db.find? (fun x : Record =>
        strStartsWith x.code (r.code.take 5) && (x.level == "Prov")) = none := by
      rw [List.find?_eq_none]
      intro x hx hpx
      rw [Bool.and_eq_true] at hpx
      obtain ⟨h1, h2⟩ := hpx
      rw [hprov x hx (by simpa using h2)] at h1
      exact Bool.noConfusion h1
    rw [hfind]
    rfl
  have hC : ((code_to_name db).find? (fun p =>
      strStartsWith p.1 (r.code.take 7) &&
        (dictGet (code_to_level db) p.1 == some "City" ||
         dictGet (code_to_level db) p.1 == some "Mun"))).map (fun p => p.2) = none := by
    rw [code_to_name_eq hu, List.find?_map]
    have hcong : ∀ x ∈ db,
        ((fun p : String × String =>
          strStartsWith p.1 (r.code.take 7) &&
            (dictGet (code_to_level db) p.1 == some "City" ||
             dictGet (code_to_level db) p.1 == some "Mun")) ∘
          (fun x : Record => (x.code, x.name))) x =
        (fun x : Record => strStartsWith x.code (r.code.take 7) &&
          ((x.level == "City") || (x.level == "Mun"))) x := by
      intro x hx
      simp only [Function.comp_apply]
      rw [hlevget x hx]
      rfl
    rw [find?_congr_mem hcong]
    have hfind : db.find? (fun x : Record =>
        strStartsWith x.code (r.code.take 7) &&
          ((x.level == "City") || (x.level == "Mun"))) = none := by
      rw [List.find?_eq_none]
      intro x hx hpx
      rw [Bool.and_eq_true] at hpx
      obtain ⟨h1, h2⟩ := hpx
      rw [Bool.or_eq_true] at h2
      have hdisj : x.level = "City" ∨ x.level = "Mun" := by
        rcases h2 with h2 | h2
        · exact Or.inl (by simpa using h2)
        · exact Or.inr (by simpa using h2)
      rw [hcity x hx hdisj] at h1
      exact Bool.noConfusion h1
    rw [hfind]
    rfl
  have hD : (if dictGet (code_to_level db) r.code = some "Bgy"
      then (dictGet (code_to_name db) r.code).toList else []) = ([] : List String) := by
    rw [hlevget r hr, hlvl]
    simp
  show String.intercalate " > " (path_parts db r.code) = r.name
  simp only [path_parts]
  rw [hA, hB, hC, hD]
  simp only [truthyToList, List.append_nil]
  by_cases hn : r.name.isEmpty
  · rw [if_pos hn]
    rw [(String.isEmpty_iff r.name).mp hn]
    rfl
  · rw [if_neg hn]
    rfl

/-- Witness for C7 at a concrete dataset satisfying the hypotheses. -/
theorem region_path_own_name_witness :
    (⟨"0100000000", "Ilocos Region", "Reg"⟩ : Record) ∈ dbRegProv ∧
    ("Reg" : String) = "Reg" ∧
    dbRegProv.Pairwise (fun a b => a.code ≠ b.code) ∧
    (∀ x ∈ dbRegProv, x.level = "Reg" →
      strStartsWith x.code ("0100000000".take 2) = true →
        x = ⟨"0100000000", "Ilocos Region", "Reg"⟩) ∧
    (∀ x ∈ dbRegProv, x.level = "Prov" →
      strStartsWith x.code ("0100000000".take 5) = false) ∧
    (∀ x ∈ dbRegProv, x.level = "City" ∨ x.level = "Mun" →
      strStartsWith x.code ("0100000000".take 7) = false) ∧
    build_full_path dbRegProv "0100000000" = "Ilocos Region" :=
  ⟨by decide, rfl, by decide, by decide, by decide, by decide,
    region_path_own_name dbRegProv ⟨"0100000000", "Ilocos Region", "Reg"⟩
      (by decide) rfl (by decide) (by decide) (by decide) (by decide)⟩

/-- C8: on every dataset and every input string whatsoever, the resolver
returns the separator-join of a list of parts, each of which is the name
of some record of the dataset (missing levels are skipped, nothing is ever
raised). -/
theorem build_full_path_total (db : List Record) (s : String) :
    ∃ parts : List String, build_full_path db s = String.intercalate " > " parts ∧
      ∀ p ∈ parts, ∃ r ∈ db, p = r.name :=
  ⟨path_parts db s, rfl, path_parts_names db s⟩

/-- C9: the three filtered list operations read only the first 2, 5 and 7
characters of their filter codes respectively. -/
theorem filters_fixed_width (db : List Record) (a b c d e f : String)
    (ha : a ≠ "") (hb : b ≠ "") (hab : a.take 2 = b.take 2)
    (hc : c ≠ "") (hd : d ≠ "") (hcd : c.take 5 = d.take 5)
    (he : e ≠ "") (hf : f ≠ "") (hef : e.take 7 = f.take 7) :
    get_provinces db (some a) = get_provinces db (some b) ∧
    get_cities_municipalities db (some c) = get_cities_municipalities db (some d) ∧
    get_barangays db (some e) = get_barangays db (some f) := by
  refine ⟨?_, ?_, ?_⟩
  · have hta : pyTruthy (some a) = true := pyTruthy_some ha
    have htb : pyTruthy (some b) = true := pyTruthy_some hb
    simp [get_provinces, hta, htb, hab]
  · have htc : pyTruthy (some c) = true := pyTruthy_some hc
    have htd : pyTruthy (some d) = true := pyTruthy_some hd
    simp [get_cities_municipalities, htc, htd, hcd]
  · have hte : pyTruthy (some e) = true := pyTruthy_some he
    have htf : pyTruthy (some f) = true := pyTruthy_some hf
    simp [get_barangays, hte, htf, hef]

/-- Witness for C9 at concrete codes agreeing on the relevant heads. -/
theorem filters_fixed_width_witness :
    ("1300000000" : String) ≠ "" ∧ ("1355555555" : String) ≠ "" ∧
    "1300000000".take 2 = "1355555555".take 2 ∧
    ("0102800000" : String) ≠ "" ∧ ("0102899999" : String) ≠ "" ∧
    "0102800000".take 5 = "0102899999".take 5 ∧
    ("1380601000" : String) ≠ "" ∧ ("1380601777" : String) ≠ "" ∧
    "1380601000".take 7 = "1380601777".take 7 ∧
    (get_provinces dbRegProv (some "1300000000") =
        get_provinces dbRegProv (some "1355555555") ∧
     get_cities_municipalities dbRegProv (some "0102800000") =
        get_cities_municipalities dbRegProv (some "0102899999") ∧
     get_barangays dbRegProv (some "1380601000") =
        get_barangays dbRegProv (some "1380601777")) :=
  ⟨by decide, by decide, by decide, by decide, by decide, by decide, by decide,
    by decide, by decide,
    filters_fixed_width dbRegProv "1300000000" "1355555555" "0102800000"
      "0102899999" "1380601000" "1380601777" (by decide) (by decide) (by decide)
      (by decide) (by decide) (by decide) (by decide) (by decide) (by decide)⟩

/-- C10: the empty string as filter code behaves exactly like the omitted
filter, for all three filtered list operations. -/
theorem empty_filter_eq_none (db : List Record) :
    get_provinces db (some "") = get_provinces db none ∧
    get_cities_municipalities db (some "") = get_cities_municipalities db none ∧
    get_barangays db (some "") = get_barangays db none :=
  ⟨rfl, rfl, rfl⟩

end PSGC
